import Mathlib

/-!
Verification development for the Chat2Fill form pipeline.

This file gives a shallow embedding of the two core subsystems of the
repository — the schema extraction engine (`form_parser.py`) and the
autofill engine (`form_autofiller.py`) — and proves properties of the
embedded definitions.  Browser effects (Playwright page actions,
screenshots, log writes) are modelled by an explicit environment that
decides the success or failure of each primitive action; the control
flow around those actions is translated statement by statement from the
Python source.
-/

set_option autoImplicit false

namespace C2F

/-! ## Data model of the autofill engine

`form_autofiller.py` receives the form schema and the conversation
responses as JSON-like dictionaries.  We embed the fields the code
actually reads: `field.get("id")`, `field.get("name")`,
`field.get("label")`, `field["type"]`, `field.get("options", [])`,
and for responses `r["field_id"]`, `r["value"]`, `r.get("valid")`.
-/

/-- A response value: a scalar string for single-answer types, or a list
of strings for checkboxes (`_fill_checkbox` accepts both). -/
inductive Value where
  | str (s : String)
  | vlist (ss : List String)
deriving DecidableEq, Repr

/-- One `{value, text, selected, disabled}` option entry of a schema field. -/
structure OptionEntry where
  value : String
  text : String
  selected : Bool
  disabled : Bool
deriving DecidableEq, Repr

/-- The parts of a schema field dictionary read by the autofiller.
Optional entries model Python's `dict.get` returning `None`. -/
structure AField where
  fid : Option String
  fname : Option String
  flabel : Option String
  ftype : String
  options : List OptionEntry
deriving DecidableEq, Repr

/-- One `ValueMap` entry `{field_id, value, valid}`. -/
structure Resp where
  field_id : String
  value : Value
  valid : Bool
deriving DecidableEq, Repr

/-- How Python renders an optional string inside an f-string:
`None` prints as `"None"`. -/
def pyOptStr : Option String → String
  | some s => s
  | none => "None"

/-- Python truthiness of an optional string (`None` and `""` are falsy). -/
def pyTruthy : Option String → Bool
  | some s => s ≠ ""
  | none => false

/-- `FormAutofiller._get_field_selector`, translated branch by branch. -/
def getFieldSelector (f : AField) : String :=
  let fid := pyOptStr f.fid
  let nm := pyOptStr f.fname
  let lbl := pyOptStr f.flabel
  if f.ftype == "multiple_choice" || f.ftype == "dropdown" then
    "div[role=\x27radiogroup\x27][aria-labelledby*=\x27" ++ fid ++
      "\x27], div[role=\x27listbox\x27][aria-labelledby*=\x27" ++ fid ++
      "\x27], select[name=\x27" ++ nm ++ "\x27]"
  else if pyTruthy f.fid then "#" ++ fid
  else if pyTruthy f.fname then "[name=\x27" ++ nm ++ "\x27]"
  else if pyTruthy f.flabel then
    "label:contains(\x27" ++ lbl ++ "\x27) + input, label:contains(\x27" ++ lbl ++
      "\x27) input, input[aria-label*=\x27" ++ lbl ++ "\x27]"
  else if f.ftype == "select" || f.ftype == "textarea" then f.ftype
  else "input[type=\x27" ++ f.ftype ++ "\x27]"

/-- One entry of the `mappings` dictionary built by
`_map_responses_to_fields`. -/
structure Mapping where
  field : AField
  value : Option Value
  selector : String
deriving DecidableEq, Repr

/-- `{r["field_id"]: r for r in responses if r.get("valid")}` — the last
valid response with a given id wins (dict-comprehension overwrite). -/
def lookupResp (rs : List Resp) (fid : String) : Option Resp :=
  ((rs.filter (fun r => r.valid)).reverse).find? (fun r => r.field_id == fid)

/-- Python dict assignment `d[k] = v` on an insertion-ordered
association list: an existing key keeps its position, a new key is
appended. -/
def dictInsert (k : Option String) (v : Mapping) :
    List (Option String × Mapping) → List (Option String × Mapping)
  | [] => [(k, v)]
  | (k1, v1) :: t => if k1 == k then (k1, v) :: t else (k1, v1) :: dictInsert k v t

/-- `form_schema.get("forms", [{}])[0].get("fields", [])`. -/
def fieldsOf (forms : List (List AField)) : List AField :=
  forms.head?.getD []

/-- The mapping entry built for one field: its response value (when a
valid response with this field id exists) and its selector. -/
def mkMapping (responses : List Resp) (f : AField) : Mapping :=
  let rv : Option Value :=
    match f.fid with
    | some s => (lookupResp responses s).map (fun r => r.value)
    | none => none
  { field := f, value := rv, selector := getFieldSelector f }

/-- `FormAutofiller._map_responses_to_fields`: iterate the schema fields
in order, mapping each to its response value (or `None`). -/
def mapResponses (forms : List (List AField)) (responses : List Resp) :
    List (Option String × Mapping) :=
  (fieldsOf forms).foldl (fun acc f => dictInsert f.fid (mkMapping responses f) acc) []

/-! ## The browser environment

Each primitive Playwright action either succeeds or raises; the
environment decides which, per selector/value.  Screenshot capture and
log saving are modelled by the path they return (`_capture_screenshot`
and `_save_logs` both swallow their own exceptions and return `""` on
failure, so a plain path-valued function is a faithful model).
`pages` is the number of times `_find_next_button` finds a visible
next/continue control. -/

/-- A DOM mutation performed on the live page. -/
inductive Action where
  | fillA (selector : String) (value : Value)
  | selectA (selector : String) (value : String)
  | clickA (selector : String)
  | checkA (selector : String)
deriving DecidableEq, Repr

structure Env where
  gotoErr : Option String
  fillErr : String → Value → Option String
  selectErr : String → String → Option String
  clickErr : String → Option String
  checkErr : String → Option String
  shot : String → String
  logPath : String
  pages : Nat
  nextClickErr : Nat → Option String
  submitFound : Bool
  submitClickErr : Option String

/-- `FormAutofiller._fill_text_field`: `page.fill` then a settle delay. -/
def fillTextField (env : Env) (sel : String) (v : Value) : Except String (List Action) :=
  match env.fillErr sel v with
  | none => .ok [.fillA sel v]
  | some e => .error e

/-- `FormAutofiller._fill_textarea` (same body as the text case). -/
def fillTextarea (env : Env) (sel : String) (v : Value) : Except String (List Action) :=
  match env.fillErr sel v with
  | none => .ok [.fillA sel v]
  | some e => .error e

/-- `opt["text"] == value or opt["value"] == value` (a Python list never
equals a string). -/
def optMatches (v : Value) (o : OptionEntry) : Bool :=
  v == Value.str o.text || v == Value.str o.value

/-- `FormAutofiller._fill_select`: select the first matching option;
with no match the loop falls through and nothing is selected. -/
def fillSelect (env : Env) (sel : String) (v : Value) (opts : List OptionEntry) :
    Except String (List Action) :=
  match opts.find? (optMatches v) with
  | none => .ok []
  | some o =>
    match env.selectErr sel o.value with
    | none => .ok [.selectA sel o.value]
    | some e => .error e

def radioSelector (sel : String) (optValue : String) : String :=
  sel ++ " div[role=\x27radio\x27][data-value=\x27" ++ optValue ++ "\x27]"

/-- `FormAutofiller._fill_multiple_choice`: click the radio whose
`data-value` matches the first matching option. -/
def fillMultipleChoice (env : Env) (sel : String) (v : Value) (opts : List OptionEntry) :
    Except String (List Action) :=
  match opts.find? (optMatches v) with
  | none => .ok []
  | some o =>
    match env.clickErr (radioSelector sel o.value) with
    | none => .ok [.clickA (radioSelector sel o.value)]
    | some e => .error e

/-- A string checkbox value is split on commas and stripped. -/
def cbValues : Value → List String
  | .str s => (s.splitOn ",").map (fun t => t.trim)
  | .vlist l => l

def cbSelector (sel : String) (optValue : String) : String :=
  sel ++ " div[role=\x27checkbox\x27][data-value=\x27" ++ optValue ++ "\x27]"

/-- The option loop of `_fill_checkbox`: check every option matching one
of the requested values; a raised check aborts the loop. -/
def fillCheckboxGo (env : Env) (sel : String) (vals : List String) :
    List OptionEntry → Except String (List Action)
  | [] => .ok []
  | o :: t =>
    if vals.contains o.text || vals.contains o.value then
      match env.checkErr (cbSelector sel o.value) with
      | some e => .error e
      | none =>
        match fillCheckboxGo env sel vals t with
        | .ok acts => .ok (.checkA (cbSelector sel o.value) :: acts)
        | .error e => .error e
    else fillCheckboxGo env sel vals t

/-- `FormAutofiller._fill_checkbox`. -/
def fillCheckbox (env : Env) (sel : String) (v : Value) (opts : List OptionEntry) :
    Except String (List Action) :=
  fillCheckboxGo env sel (cbValues v) opts

/-- The field types handled by the text-like branch of the dispatch. -/
def textTypes : List String := ["text", "email", "number", "tel", "url", "password"]

/-- The type dispatch of `_fill_form_fields` (the if/elif chain inside
the per-field try).  `none` is the unsupported-type else branch. -/
def fieldDispatch (env : Env) (f : AField) (sel : String) (v : Value) :
    Option (Except String (List Action)) :=
  if textTypes.contains f.ftype then some (fillTextField env sel v)
  else if f.ftype == "textarea" then some (fillTextarea env sel v)
  else if f.ftype == "select" || f.ftype == "dropdown" then some (fillSelect env sel v f.options)
  else if f.ftype == "radio" || f.ftype == "multiple_choice" then
    some (fillMultipleChoice env sel v f.options)
  else if f.ftype == "checkbox" then some (fillCheckbox env sel v f.options)
  else none

/-- The incrementally built `AutofillResult`. -/
structure AResult where
  status : String
  filled_fields : List (Option String)
  errors : List String
  screenshots : List String
  log_file : String
deriving DecidableEq, Repr

def noValueMsg (f : AField) : String :=
  "No value for field " ++ pyOptStr f.flabel

def unsupportedMsg (f : AField) : String :=
  "Unsupported field type " ++ f.ftype ++ " for " ++ pyOptStr f.flabel

def failMsg (f : AField) (e : String) : String :=
  "Failed to fill " ++ pyOptStr f.flabel ++ ": " ++ e

def fieldErrTag (k : Option String) : String :=
  "field_error_" ++ pyOptStr k

/-- One iteration of the per-field loop of `_fill_form_fields`: missing
value → error and continue; unsupported type → error and continue;
successful fill → label appended to `filled_fields`; raised fill →
error plus a labeled screenshot, and the loop continues. -/
def stepField (env : Env) (r : AResult) (kv : Option String × Mapping) : AResult :=
  let f := kv.2.field
  match kv.2.value with
  | none => { r with errors := r.errors ++ [noValueMsg f] }
  | some v =>
    match fieldDispatch env f kv.2.selector v with
    | none => { r with errors := r.errors ++ [unsupportedMsg f] }
    | some (.ok _) => { r with filled_fields := r.filled_fields ++ [f.flabel] }
    | some (.error e) =>
      { r with errors := r.errors ++ [failMsg f e],
               screenshots := r.screenshots ++ [env.shot (fieldErrTag kv.1)] }

/-- The whole per-field loop over one page. -/
def fillPageFields (env : Env) (mappings : List (Option String × Mapping)) (r : AResult) :
    AResult :=
  mappings.foldl (stepField env) r

def pageErrMsg (page : Nat) (e : String) : String :=
  "Page " ++ toString page ++ " error: " ++ e

/-- The `while True` page loop of `_fill_form_fields`: fill all fields,
look for a next button, click it (a raised click is recorded as a page
error and stops the loop), and repeat on the next page.  The fuel is
chosen below so that it never runs out before the next button
disappears. -/
def fillLoop (env : Env) (mappings : List (Option String × Mapping)) :
    Nat → Nat → AResult → AResult
  | 0, _, r => r
  | fuel + 1, page, r =>
    let r1 := fillPageFields env mappings r
    if page < env.pages then
      match env.nextClickErr page with
      | some e => { r1 with errors := r1.errors ++ [pageErrMsg page e] }
      | none => fillLoop env mappings fuel (page + 1) r1
    else r1

/-- `FormAutofiller._fill_form_fields`. -/
def fillFormFields (env : Env) (mappings : List (Option String × Mapping)) (r : AResult) :
    AResult :=
  fillLoop env mappings (env.pages + 1) 0 r

/-- `FormAutofiller._submit_form`: all exceptions are caught and
recorded; a missing submit control records a non-fatal error. -/
def submitForm (env : Env) (r : AResult) : AResult :=
  if env.submitFound then
    match env.submitClickErr with
    | none => r
    | some e => { r with errors := r.errors ++ ["Submit error: " ++ e] }
  else { r with errors := r.errors ++ ["No submit button found"] }

/-- `FormAutofiller.autofill_form`.  The only statement in the outer
try whose exceptions can reach the outer except is the initial
`page.goto` (every other callee catches its own exceptions), so the
error path is driven by `gotoErr` alone. -/
def autofillForm (env : Env) (forms : List (List AField)) (responses : List Resp) :
    AResult :=
  let r0 : AResult :=
    { status := "success", filled_fields := [], errors := [],
      screenshots := [], log_file := "" }
  match env.gotoErr with
  | some e =>
    { status := "error", filled_fields := r0.filled_fields,
      errors := r0.errors ++ [e],
      screenshots := r0.screenshots ++ [env.shot "error"],
      log_file := env.logPath }
  | none =>
    let maps := mapResponses forms responses
    let r1 := fillFormFields env maps r0
    let r2 := submitForm env r1
    { r2 with screenshots := r2.screenshots ++ [env.shot "final"],
              log_file := env.logPath }

/-! ## Basic lemmas about the autofill engine -/

theorem stepField_status (env : Env) (r : AResult) (kv : Option String × Mapping) :
    (stepField env r kv).status = r.status := by
  simp only [stepField]
  split
  · rfl
  · split <;> rfl

theorem stepField_log (env : Env) (r : AResult) (kv : Option String × Mapping) :
    (stepField env r kv).log_file = r.log_file := by
  simp only [stepField]
  split
  · rfl
  · split <;> rfl

theorem fillPageFields_cons (env : Env) (m : Option String × Mapping)
    (t : List (Option String × Mapping)) (r : AResult) :
    fillPageFields env (m :: t) r = fillPageFields env t (stepField env r m) := rfl

theorem fillPageFields_status (env : Env) (ms : List (Option String × Mapping)) :
    ∀ r : AResult, (fillPageFields env ms r).status = r.status := by
  induction ms with
  | nil => intro r; rfl
  | cons m t ih => intro r; rw [fillPageFields_cons, ih, stepField_status]

theorem fillLoop_status (env : Env) (ms : List (Option String × Mapping)) :
    ∀ (fuel page : Nat) (r : AResult), (fillLoop env ms fuel page r).status = r.status := by
  intro fuel
  induction fuel with
  | zero => intro page r; rfl
  | succ n ih =>
    intro page r
    simp only [fillLoop]
    split
    · split
      · exact fillPageFields_status env ms r
      · rw [ih, fillPageFields_status]
    · exact fillPageFields_status env ms r

theorem submitForm_status (env : Env) (r : AResult) :
    (submitForm env r).status = r.status := by
  simp only [submitForm]
  split
  · split <;> rfl
  · rfl

theorem autofillForm_status (env : Env) (forms : List (List AField)) (responses : List Resp) :
    (autofillForm env forms responses).status =
      if env.gotoErr.isSome then "error" else "success" := by
  unfold autofillForm
  cases h : env.gotoErr with
  | some e => simp [h]
  | none => simp [h, submitForm_status, fillFormFields, fillLoop_status]

/-- **C1.** Exceptions raised while filling an individual field are
caught inside the per-field loop and never propagate: the failure is
appended to `errors` (with a labeled screenshot), `filled_fields` and
`status` are untouched, and the loop continues with the next field;
`status` becomes `"error"` exactly on the outer exception path, i.e.
when the initial navigation raises. -/
theorem autofill_c1 (env : Env) (forms : List (List AField)) (responses : List Resp)
    (kv : Option String × Mapping) (ms : List (Option String × Mapping)) (r : AResult)
    (v : Value) (e : String)
    (hv : kv.2.value = some v)
    (he : fieldDispatch env kv.2.field kv.2.selector v = some (.error e)) :
    ((autofillForm env forms responses).status = "error" ↔ env.gotoErr.isSome) ∧
    stepField env r kv =
      { r with errors := r.errors ++ [failMsg kv.2.field e],
               screenshots := r.screenshots ++ [env.shot (fieldErrTag kv.1)] } ∧
    fillPageFields env (kv :: ms) r = fillPageFields env ms (stepField env r kv) := by
  refine ⟨?_, ?_, rfl⟩
  · rw [autofillForm_status]
    cases env.gotoErr <;> simp
  · simp [stepField, hv, he]

/-- A working environment used for witnesses: navigation succeeds, all
page actions succeed, single page, submit control present. -/
def env0 : Env :=
  { gotoErr := none, fillErr := fun _ _ => none, selectErr := fun _ _ => none,
    clickErr := fun _ => none, checkErr := fun _ => none,
    shot := fun p => p ++ ".png", logPath := "autofill_logs/autofill.json", pages := 0,
    nextClickErr := fun _ => none, submitFound := true, submitClickErr := none }

/-- An environment where every `page.fill` raises. -/
def envFillFail : Env :=
  { env0 with fillErr := fun _ _ => some "Timeout 30000ms exceeded" }

def fText : AField :=
  { fid := some "full_name", fname := some "full_name", flabel := some "Full Name",
    ftype := "text", options := [] }

def kvFail : Option String × Mapping :=
  (some "full_name",
   { field := fText, value := some (Value.str "John Doe"),
     selector := getFieldSelector fText })

def rEmpty : AResult :=
  { status := "success", filled_fields := [], errors := [], screenshots := [],
    log_file := "" }

theorem autofill_c1_witness :
    ((autofillForm envFillFail [] []).status = "error" ↔ envFillFail.gotoErr.isSome) ∧
    stepField envFillFail rEmpty kvFail =
      { rEmpty with
          errors := rEmpty.errors ++ [failMsg kvFail.2.field "Timeout 30000ms exceeded"],
          screenshots := rEmpty.screenshots ++
            [envFillFail.shot (fieldErrTag kvFail.1)] } ∧
    fillPageFields envFillFail (kvFail :: []) rEmpty =
      fillPageFields envFillFail [] (stepField envFillFail rEmpty kvFail) :=
  autofill_c1 envFillFail [] [] kvFail [] rEmpty (Value.str "John Doe")
    "Timeout 30000ms exceeded" rfl rfl

/-- **C7.** When the initial navigation raises, the call returns (it
does not propagate): the result has `status = "error"`, a non-empty
`errors` list holding the navigation error, exactly one screenshot, and
the log file path. -/
theorem autofill_c7 (env : Env) (forms : List (List AField)) (responses : List Resp)
    (e : String) (h : env.gotoErr = some e) :
    autofillForm env forms responses =
      { status := "error", filled_fields := [], errors := [e],
        screenshots := [env.shot "error"], log_file := env.logPath } ∧
    (autofillForm env forms responses).errors ≠ [] ∧
    (autofillForm env forms responses).screenshots.length = 1 := by
  unfold autofillForm
  simp [h]

def envNavFail : Env :=
  { env0 with gotoErr := some "Timeout 30000ms exceeded navigating to url" }

theorem autofill_c7_witness :
    autofillForm envNavFail [] [] =
      { status := "error", filled_fields := [],
        errors := ["Timeout 30000ms exceeded navigating to url"],
        screenshots := [envNavFail.shot "error"], log_file := envNavFail.logPath } ∧
    (autofillForm envNavFail [] []).errors ≠ [] ∧
    (autofillForm envNavFail [] []).screenshots.length = 1 :=
  autofill_c7 envNavFail [] [] "Timeout 30000ms exceeded navigating to url" rfl

/-- **C8.** Every call, on the success path and on the error path
alike, appends one last screenshot to `screenshots` and records the
structured log file's path in `log_file` before returning. -/
theorem autofill_c8 (env : Env) (forms : List (List AField)) (responses : List Resp) :
    (autofillForm env forms responses).log_file = env.logPath ∧
    (autofillForm env forms responses).screenshots.getLast? =
      some (env.shot (if env.gotoErr.isSome then "error" else "final")) := by
  unfold autofillForm
  cases h : env.gotoErr with
  | some e => simp [h]
  | none => simp [h]

theorem fillCheckboxGo_nomatch (env : Env) (sel : String) (vals : List String) :
    ∀ opts : List OptionEntry,
      (∀ o ∈ opts, vals.contains o.text = false ∧ vals.contains o.value = false) →
      fillCheckboxGo env sel vals opts = .ok [] := by
  intro opts
  induction opts with
  | nil => intro _; rfl
  | cons o t ih =>
    intro h
    have ho := h o (List.mem_cons_self o t)
    simp only [fillCheckboxGo, ho.1, ho.2, Bool.or_self, Bool.false_eq_true, if_false]
    exact ih (fun x hx => h x (List.mem_cons_of_mem o hx))

/-- **C10.** For a choice-type field (`dropdown`, `multiple_choice`,
`checkbox`) whose value matches none of its options, the fill helper
performs no page action at all (`.ok []`), yet the per-field loop still
appends the field's label to `filled_fields` and records no error. -/
theorem autofill_c10 (env : Env) (kv : Option String × Mapping) (r : AResult) (v : Value)
    (hv : kv.2.value = some v)
    (hopt : ∀ o ∈ kv.2.field.options, optMatches v o = false)
    (hcb : ∀ o ∈ kv.2.field.options,
      (cbValues v).contains o.text = false ∧ (cbValues v).contains o.value = false)
    (htype : kv.2.field.ftype = "dropdown" ∨ kv.2.field.ftype = "multiple_choice" ∨
      kv.2.field.ftype = "checkbox") :
    fieldDispatch env kv.2.field kv.2.selector v = some (.ok []) ∧
    stepField env r kv =
      { r with filled_fields := r.filled_fields ++ [kv.2.field.flabel] } := by
  have hfind : kv.2.field.options.find? (optMatches v) = none := by
    rw [List.find?_eq_none]
    intro o ho
    simp [hopt o ho]
  have hdisp : fieldDispatch env kv.2.field kv.2.selector v = some (.ok []) := by
    rcases htype with h | h | h <;>
      simp [fieldDispatch, h, textTypes, fillSelect, hfind, fillMultipleChoice,
        fillCheckbox, fillCheckboxGo_nomatch env kv.2.selector (cbValues v)
          kv.2.field.options hcb]
  exact ⟨hdisp, by simp [stepField, hv, hdisp]⟩

def fDrop : AField :=
  { fid := some "year", fname := some "year", flabel := some "Current Year",
    ftype := "dropdown",
    options := [{ value := "1st Year", text := "1st Year", selected := false,
                  disabled := false }] }

def kvDrop : Option String × Mapping :=
  (some "year",
   { field := fDrop, value := some (Value.vlist ["5th Year"]),
     selector := getFieldSelector fDrop })

theorem autofill_c10_witness :
    fieldDispatch env0 kvDrop.2.field kvDrop.2.selector (Value.vlist ["5th Year"]) =
      some (.ok []) ∧
    stepField env0 rEmpty kvDrop =
      { rEmpty with filled_fields := rEmpty.filled_fields ++ [kvDrop.2.field.flabel] } :=
  autofill_c10 env0 kvDrop rEmpty (Value.vlist ["5th Year"]) rfl (by decide) (by decide)
    (by decide)

/-! ## C2: one missing ValueMap entry -/

/-- An environment in which every page action succeeds. -/
def envAllOk (env : Env) : Prop :=
  (∀ sel v, env.fillErr sel v = none) ∧ (∀ sel v, env.selectErr sel v = none) ∧
  (∀ sel, env.clickErr sel = none) ∧ (∀ sel, env.checkErr sel = none)

/-- The field types that reach one of the fill helpers (every other
type hits the unsupported-type branch). -/
def handledType (t : String) : Bool :=
  textTypes.contains t || t == "textarea" || t == "select" || t == "dropdown" ||
  t == "radio" || t == "multiple_choice" || t == "checkbox"

theorem fillCheckboxGo_ok (env : Env) (sel : String) (vals : List String)
    (hchk : ∀ s, env.checkErr s = none) :
    ∀ opts : List OptionEntry, ∃ acts, fillCheckboxGo env sel vals opts = .ok acts := by
  intro opts
  induction opts with
  | nil => exact ⟨[], rfl⟩
  | cons o t ih =>
    obtain ⟨acts, hacts⟩ := ih
    by_cases hc : (vals.contains o.text || vals.contains o.value) = true
    · refine ⟨.checkA (cbSelector sel o.value) :: acts, ?_⟩
      simp only [fillCheckboxGo]
      rw [if_pos hc]
      simp only [hchk, hacts]
    · refine ⟨acts, ?_⟩
      simp only [fillCheckboxGo]
      rw [if_neg hc]
      exact hacts

theorem fieldDispatch_ok (env : Env) (hok : envAllOk env) (f : AField) (sel : String)
    (v : Value) (hh : handledType f.ftype = true) :
    ∃ acts, fieldDispatch env f sel v = some (.ok acts) := by
  obtain ⟨hfill, hsel, hclick, hchk⟩ := hok
  simp only [handledType, Bool.or_eq_true, beq_iff_eq] at hh
  rcases hh with ((((((h | h) | h) | h) | h) | h) | h)
  · refine ⟨[.fillA sel v], ?_⟩
    simp only [fieldDispatch]
    rw [if_pos h]
    simp [fillTextField, hfill]
  · refine ⟨[.fillA sel v], ?_⟩
    simp only [fieldDispatch, h]
    have hnc : "textarea" ∉ textTypes := by decide
    simp [hnc, fillTextarea, hfill]
  · cases hf : f.options.find? (optMatches v) with
    | none =>
      refine ⟨[], ?_⟩
      simp only [fieldDispatch, h]
      have hnc : "select" ∉ textTypes := by decide
      simp [hnc, fillSelect, hf]
    | some o =>
      refine ⟨[.selectA sel o.value], ?_⟩
      simp only [fieldDispatch, h]
      have hnc : "select" ∉ textTypes := by decide
      simp [hnc, fillSelect, hf, hsel]
  · cases hf : f.options.find? (optMatches v) with
    | none =>
      refine ⟨[], ?_⟩
      simp only [fieldDispatch, h]
      have hnc : "dropdown" ∉ textTypes := by decide
      simp [hnc, fillSelect, hf]
    | some o =>
      refine ⟨[.selectA sel o.value], ?_⟩
      simp only [fieldDispatch, h]
      have hnc : "dropdown" ∉ textTypes := by decide
      simp [hnc, fillSelect, hf, hsel]
  · cases hf : f.options.find? (optMatches v) with
    | none =>
      refine ⟨[], ?_⟩
      simp only [fieldDispatch, h]
      have hnc : "radio" ∉ textTypes := by decide
      simp [hnc, fillMultipleChoice, hf]
    | some o =>
      refine ⟨[.clickA (radioSelector sel o.value)], ?_⟩
      simp only [fieldDispatch, h]
      have hnc : "radio" ∉ textTypes := by decide
      simp [hnc, fillMultipleChoice, hf, hclick]
  · cases hf : f.options.find? (optMatches v) with
    | none =>
      refine ⟨[], ?_⟩
      simp only [fieldDispatch, h]
      have hnc : "multiple_choice" ∉ textTypes := by decide
      simp [hnc, fillMultipleChoice, hf]
    | some o =>
      refine ⟨[.clickA (radioSelector sel o.value)], ?_⟩
      simp only [fieldDispatch, h]
      have hnc : "multiple_choice" ∉ textTypes := by decide
      simp [hnc, fillMultipleChoice, hf, hclick]
  · obtain ⟨acts, hacts⟩ := fillCheckboxGo_ok env sel (cbValues v) hchk f.options
    refine ⟨acts, ?_⟩
    simp only [fieldDispatch, h]
    have hnc : "checkbox" ∉ textTypes := by decide
    simp [hnc, fillCheckbox, hacts]

theorem dictInsert_of_not_mem (k : Option String) (v : Mapping) :
    ∀ acc : List (Option String × Mapping), (∀ p ∈ acc, p.1 ≠ k) →
      dictInsert k v acc = acc ++ [(k, v)] := by
  intro acc
  induction acc with
  | nil => intro _; rfl
  | cons p t ih =>
    intro h
    obtain ⟨k1, v1⟩ := p
    have hne : k1 ≠ k := h (k1, v1) (List.mem_cons_self _ _)
    have hbeq : (k1 == k) = false := beq_eq_false_iff_ne.mpr hne
    simp only [dictInsert, hbeq, Bool.false_eq_true, if_false, List.cons_append]
    rw [ih (fun q hq => h q (List.mem_cons_of_mem _ hq))]

theorem foldl_dictInsert (responses : List Resp) :
    ∀ (fields : List AField) (acc : List (Option String × Mapping)),
      (fields.map (fun f => f.fid)).Nodup →
      (∀ f ∈ fields, ∀ p ∈ acc, p.1 ≠ f.fid) →
      fields.foldl (fun a f => dictInsert f.fid (mkMapping responses f) a) acc =
        acc ++ fields.map (fun f => (f.fid, mkMapping responses f)) := by
  intro fields
  induction fields with
  | nil => intro acc _ _; simp
  | cons f t ih =>
    intro acc hnd hdisj
    rw [List.map_cons, List.nodup_cons] at hnd
    have hstep : dictInsert f.fid (mkMapping responses f) acc =
        acc ++ [(f.fid, mkMapping responses f)] :=
      dictInsert_of_not_mem _ _ acc (fun p hp => hdisj f (List.mem_cons_self _ _) p hp)
    have hdisj2 : ∀ g ∈ t, ∀ p ∈ acc ++ [(f.fid, mkMapping responses f)], p.1 ≠ g.fid := by
      intro g hg p hp
      rcases List.mem_append.mp hp with hp1 | hp2
      · exact hdisj g (List.mem_cons_of_mem _ hg) p hp1
      · have hp : p = (f.fid, mkMapping responses f) := by simpa using hp2
        subst hp
        intro hcontra
        have hfg : f.fid = g.fid := hcontra
        exact hnd.1 (by rw [hfg]; exact List.mem_map_of_mem (fun x => x.fid) hg)
    calc (f :: t).foldl (fun a g => dictInsert g.fid (mkMapping responses g) a) acc
        = t.foldl (fun a g => dictInsert g.fid (mkMapping responses g) a)
            (acc ++ [(f.fid, mkMapping responses f)]) := by rw [List.foldl_cons, hstep]
      _ = acc ++ [(f.fid, mkMapping responses f)] ++
            t.map (fun g => (g.fid, mkMapping responses g)) := ih _ hnd.2 hdisj2
      _ = acc ++ (f :: t).map (fun g => (g.fid, mkMapping responses g)) := by
            simp [List.append_assoc]

theorem mapResponses_eq (fields : List AField) (responses : List Resp)
    (hnd : (fields.map (fun f => f.fid)).Nodup) :
    mapResponses [fields] responses =
      fields.map (fun f => (f.fid, mkMapping responses f)) := by
  unfold mapResponses fieldsOf
  simpa using foldl_dictInsert responses fields [] hnd (by simp)

/-- A mapping entry whose fill attempt succeeds. -/
def goodMapping (env : Env) (kv : Option String × Mapping) : Prop :=
  ∃ v acts, kv.2.value = some v ∧
    fieldDispatch env kv.2.field kv.2.selector v = some (.ok acts)

theorem fillPageFields_split (env : Env) :
    ∀ (ms : List (Option String × Mapping)) (r : AResult),
      (∀ kv ∈ ms, kv.2.value = none ∨ goodMapping env kv) →
      fillPageFields env ms r =
        { r with
          filled_fields := r.filled_fields ++
            (ms.filter (fun kv => kv.2.value.isSome)).map (fun kv => kv.2.field.flabel),
          errors := r.errors ++
            (ms.filter (fun kv => kv.2.value.isNone)).map
              (fun kv => noValueMsg kv.2.field) } := by
  intro ms
  induction ms with
  | nil => intro r _; simp [fillPageFields]
  | cons m t ih =>
    intro r h
    rw [fillPageFields_cons]
    rcases h m (List.mem_cons_self _ _) with hnone | ⟨v, acts, hv, hd⟩
    · have hstep : stepField env r m =
          { r with errors := r.errors ++ [noValueMsg m.2.field] } := by
        simp [stepField, hnone]
      rw [hstep, ih _ (fun kv hk => h kv (List.mem_cons_of_mem _ hk))]
      simp [List.filter_cons, hnone]
    · have hstep : stepField env r m =
          { r with filled_fields := r.filled_fields ++ [m.2.field.flabel] } := by
        simp [stepField, hv, hd]
      rw [hstep, ih _ (fun kv hk => h kv (List.mem_cons_of_mem _ hk))]
      simp [List.filter_cons, hv]

theorem fillFormFields_single (env : Env) (hp : env.pages = 0)
    (ms : List (Option String × Mapping)) (r : AResult) :
    fillFormFields env ms r = fillPageFields env ms r := by
  simp [fillFormFields, fillLoop, hp]

theorem submitForm_ok (env : Env) (hsub : env.submitFound = true)
    (hsuberr : env.submitClickErr = none) (r : AResult) : submitForm env r = r := by
  simp [submitForm, hsub, hsuberr]

/-- **C2.** For a single-page form whose schema has `N` fields with
distinct ids, all of supported types, where the value map supplies a
valid response for every field except one (the entry for that field is
absent or invalid, so the valid-filtered lookup misses it), the autofill
call returns normally with `status = "success"`, its `errors` list
contains the entry naming that field, and `filled_fields` has length
`N − 1`. -/
theorem autofill_c2 (env : Env) (responses : List Resp) (pre post : List AField)
    (fj : AField)
    (hok : envAllOk env) (hgoto : env.gotoErr = none) (hpages : env.pages = 0)
    (hsub : env.submitFound = true) (hsuberr : env.submitClickErr = none)
    (hh : ∀ f ∈ pre ++ fj :: post, handledType f.ftype = true)
    (hnd : ((pre ++ fj :: post).map (fun f => f.fid)).Nodup)
    (hfound : ∀ f ∈ pre ++ post, ∃ s rr, f.fid = some s ∧ lookupResp responses s = some rr)
    (hmiss : ∀ s, fj.fid = some s → lookupResp responses s = none) :
    (autofillForm env [pre ++ fj :: post] responses).status = "success" ∧
    noValueMsg fj ∈ (autofillForm env [pre ++ fj :: post] responses).errors ∧
    (autofillForm env [pre ++ fj :: post] responses).filled_fields.length =
      (pre ++ fj :: post).length - 1 := by
  have hvfj : (mkMapping responses fj).value = none := by
    cases hj : fj.fid with
    | none => simp [mkMapping, hj]
    | some s => simp [mkMapping, hj, hmiss s hj]
  have hvf : ∀ f ∈ pre ++ post, ∃ w, (mkMapping responses f).value = some w := by
    intro f hf
    obtain ⟨s, rr, hfs, hlr⟩ := hfound f hf
    exact ⟨rr.value, by simp [mkMapping, hfs, hlr]⟩
  have hmapsEq : mapResponses [pre ++ fj :: post] responses =
      (pre ++ fj :: post).map (fun f => (f.fid, mkMapping responses f)) :=
    mapResponses_eq _ responses hnd
  have hgoodall : ∀ kv ∈ (pre ++ fj :: post).map (fun f => (f.fid, mkMapping responses f)),
      kv.2.value = none ∨ goodMapping env kv := by
    intro kv hkv
    obtain ⟨f, hf, rfl⟩ := List.mem_map.mp hkv
    rcases List.mem_append.mp hf with hf1 | hf2
    · obtain ⟨w, hw⟩ := hvf f (List.mem_append.mpr (Or.inl hf1))
      obtain ⟨acts, hacts⟩ := fieldDispatch_ok env hok f (getFieldSelector f) w (hh f hf)
      exact Or.inr ⟨w, acts, hw, hacts⟩
    · rcases List.mem_cons.mp hf2 with rfl | hf3
      · exact Or.inl hvfj
      · obtain ⟨w, hw⟩ := hvf f (List.mem_append.mpr (Or.inr hf3))
        obtain ⟨acts, hacts⟩ := fieldDispatch_ok env hok f (getFieldSelector f) w (hh f hf)
        exact Or.inr ⟨w, acts, hw, hacts⟩
  have key : autofillForm env [pre ++ fj :: post] responses =
      { status := "success",
        filled_fields :=
          (((pre ++ fj :: post).map (fun f => (f.fid, mkMapping responses f))).filter
            (fun kv => kv.2.value.isSome)).map (fun kv => kv.2.field.flabel),
        errors :=
          (((pre ++ fj :: post).map (fun f => (f.fid, mkMapping responses f))).filter
            (fun kv => kv.2.value.isNone)).map (fun kv => noValueMsg kv.2.field),
        screenshots := [env.shot "final"],
        log_file := env.logPath } := by
    simp only [autofillForm, hgoto]
    rw [hmapsEq, fillFormFields_single env hpages,
      fillPageFields_split env _ _ hgoodall,
      submitForm_ok env hsub hsuberr]
    simp
  refine ⟨by rw [key], ?_, ?_⟩
  · rw [key]
    have hmem : (fj.fid, mkMapping responses fj) ∈
        ((pre ++ fj :: post).map (fun f => (f.fid, mkMapping responses f))).filter
          (fun kv => kv.2.value.isNone) := by
      refine List.mem_filter.mpr ⟨List.mem_map_of_mem _ ?_, by simp [hvfj]⟩
      exact List.mem_append.mpr (Or.inr (List.mem_cons_self _ _))
    simpa using List.mem_map_of_mem (fun kv => noValueMsg kv.2.field) hmem
  · rw [key]
    have hsplit : ((pre ++ fj :: post).map (fun f => (f.fid, mkMapping responses f))).filter
          (fun kv => kv.2.value.isSome) =
        (pre.map (fun f => (f.fid, mkMapping responses f))).filter
          (fun kv => kv.2.value.isSome) ++
        (post.map (fun f => (f.fid, mkMapping responses f))).filter
          (fun kv => kv.2.value.isSome) := by
      simp [List.filter_append, List.filter_cons, hvfj]
    have hpre : (pre.map (fun f => (f.fid, mkMapping responses f))).filter
          (fun kv => kv.2.value.isSome) = pre.map (fun f => (f.fid, mkMapping responses f)) := by
      refine List.filter_eq_self.mpr ?_
      intro kv hkv
      obtain ⟨f, hf, rfl⟩ := List.mem_map.mp hkv
      obtain ⟨w, hw⟩ := hvf f (List.mem_append.mpr (Or.inl hf))
      simp [hw]
    have hpost : (post.map (fun f => (f.fid, mkMapping responses f))).filter
          (fun kv => kv.2.value.isSome) = post.map (fun f => (f.fid, mkMapping responses f)) := by
      refine List.filter_eq_self.mpr ?_
      intro kv hkv
      obtain ⟨f, hf, rfl⟩ := List.mem_map.mp hkv
      obtain ⟨w, hw⟩ := hvf f (List.mem_append.mpr (Or.inr hf))
      simp [hw]
    simp only [hsplit, hpre, hpost]
    simp [Nat.add_comm]

def fMissing : AField :=
  { fid := some "email1", fname := some "email1", flabel := some "Email",
    ftype := "email", options := [] }

def respJohn : Resp :=
  { field_id := "full_name", value := Value.str "John Doe", valid := true }

theorem autofill_c2_witness :
    (autofillForm env0 [[] ++ fMissing :: [fText]] [respJohn]).status = "success" ∧
    noValueMsg fMissing ∈ (autofillForm env0 [[] ++ fMissing :: [fText]] [respJohn]).errors ∧
    (autofillForm env0 [[] ++ fMissing :: [fText]] [respJohn]).filled_fields.length =
      ([] ++ fMissing :: [fText]).length - 1 :=
  autofill_c2 env0 [respJohn] [] [fText] fMissing
    ⟨fun _ _ => rfl, fun _ _ => rfl, fun _ => rfl, fun _ => rfl⟩ rfl rfl rfl rfl
    (by decide) (by decide)
    (by
      intro f hf
      have hf2 : f = fText := by simpa using hf
      subst hf2
      exact ⟨"full_name", respJohn, rfl, rfl⟩)
    (by
      intro s hs
      have hs2 : "email1" = s := Option.some.inj hs
      subst hs2
      rfl)

/-! ## DOM model for the static-HTML parser

`form_parser.py` parses static HTML through BeautifulSoup.  We embed the
parsed document as an element tree.  `find_all(..., recursive=True)` is
a pre-order walk over descendants, `recursive=False` looks at direct
children only, and `find_parent` is modelled by threading the ancestor
context (nearest enclosing `<form>`, nearest enclosing `<label>`'s text)
through the walk. -/

inductive Node where
  | elem (tag : String) (attrs : List (String × String)) (children : List Node)
  | textN (s : String)

def Node.tagOf : Node → String
  | .elem t _ _ => t
  | .textN _ => ""

def Node.childrenOf : Node → List Node
  | .elem _ _ cs => cs
  | .textN _ => []

/-- Attribute lookup (`element.get(key)` / `element[key]`). -/
def getAttr (n : Node) (key : String) : Option String :=
  match n with
  | .elem _ attrs _ => (attrs.find? (fun p => p.1 == key)).map (fun p => p.2)
  | .textN _ => none

/-- `element.get(key)` under Python truthiness: an absent or empty
attribute is falsy. -/
def truthyAttr (n : Node) (key : String) : Option String :=
  match getAttr n key with
  | some s => if s == "" then none else some s
  | none => none

def isTag (n : Node) (t : String) : Bool :=
  n.tagOf == t

/-- Characters stripped by Python's `str.strip()` (the common whitespace). -/
def isSpaceChar (c : Char) : Bool :=
  c == ' ' || c == '\t' || c == '\n' || c == '\r'

/-- `str.strip()`, written over the character list so that it reduces in
the kernel (`String.trim` is equivalent but blocks `decide`). -/
def pyStrip (s : String) : String :=
  String.mk (((s.data.dropWhile isSpaceChar).reverse.dropWhile isSpaceChar).reverse)

/-- `str.lower()`, written over the character list (`String.toLower` is
equivalent but blocks `decide`). -/
def pyLower (s : String) : String :=
  String.mk (s.data.map Char.toLower)

/-- `str.upper()`. -/
def pyUpper (s : String) : String :=
  String.mk (s.data.map Char.toUpper)

mutual
def nodeTextParts : Node → List String
  | .textN s => [pyStrip s]
  | .elem _ _ cs => nodesTextParts cs
def nodesTextParts : List Node → List String
  | [] => []
  | c :: cs => nodeTextParts c ++ nodesTextParts cs
end

/-- `element.get_text(strip=True)`: concatenate all stripped, non-empty
text descendants. -/
def getTextStrip (n : Node) : String :=
  String.join ((nodeTextParts n).filter (fun s => s ≠ ""))

mutual
/-- First match (pre-order: a node before its descendants, document
order across siblings) in the tree rooted at the node — BeautifulSoup's
`find` applied to a list of roots. -/
def findInNode (p : Node → Bool) : Node → Option Node
  | .textN _ => none
  | .elem t a cs =>
    if p (Node.elem t a cs) then some (Node.elem t a cs) else findInList p cs
def findInList (p : Node → Bool) : List Node → Option Node
  | [] => none
  | c :: cs =>
    match findInNode p c with
    | some r => some r
    | none => findInList p cs
end

mutual
/-- All descendants-or-self with one of the given tags, in document
order (`find_all(tags, recursive=True)` applied to a root). -/
def descsNode (tags : List String) : Node → List Node
  | .textN _ => []
  | .elem t a cs =>
    (if tags.contains t then [Node.elem t a cs] else []) ++ descsList tags cs
def descsList (tags : List String) : List Node → List Node
  | [] => []
  | c :: cs => descsNode tags c ++ descsList tags cs
end

/-- Ancestor context of an element: the nearest enclosing `<form>`
(`find_parent('form')`) and the text of the nearest enclosing `<label>`
(`find_parent('label').get_text(strip=True)`). -/
structure Ctx where
  form : Option Node
  labelText : Option String

def ctxInto (ctx : Ctx) (n : Node) : Ctx :=
  match n with
  | .textN _ => ctx
  | .elem t a cs =>
    { form := if t == "form" then some (Node.elem t a cs) else ctx.form,
      labelText := if t == "label" then some (getTextStrip (Node.elem t a cs))
                   else ctx.labelText }

mutual
/-- Like `descsNode` but also records each collected element's ancestor
context. -/
def collectNode (tags : List String) (ctx : Ctx) : Node → List (Node × Ctx)
  | .textN _ => []
  | .elem t a cs =>
    (if tags.contains t then [(Node.elem t a cs, ctx)] else []) ++
      collectDescList tags (ctxInto ctx (Node.elem t a cs)) cs
def collectDescList (tags : List String) (ctx : Ctx) : List Node → List (Node × Ctx)
  | [] => []
  | c :: cs => collectNode tags ctx c ++ collectDescList tags ctx cs
end

/-! ## The static-HTML parser (`FormParser.parse_html` and friends)

`str(uuid4())` is modelled by an explicit supply `sup : Nat → String`
with a counter threaded through the parse in Python's evaluation order;
each `element.get(key, str(uuid4()))` consumes one supply element
whether or not the attribute is present, exactly as Python evaluates
the default argument eagerly. -/

/-- A string that is either taken from an attribute or freshly
generated — this records where UUIDs enter the schema. -/
inductive GenStr where
  | attr (v : String)
  | gen (u : String)
deriving DecidableEq, Repr

def GenStr.render : GenStr → String
  | .attr v => v
  | .gen u => u

/-- The label of a parsed field: derived from the document, or the
generated `Untitled Field {uuid8}` placeholder. -/
inductive PLabel where
  | derived (s : String)
  | generated (u : String)
deriving DecidableEq, Repr

def PLabel.render : PLabel → String
  | .derived s => s
  | .generated u => "Untitled Field " ++ u

/-- `FormParser._extract_validation` output: `required` is stored as
`True` when the attribute is present; the other constraints are stored
only when the attribute is truthy. -/
structure Validation where
  vrequired : Bool
  vpattern : Option String
  vmin : Option String
  vmax : Option String
  vminlength : Option String
  vmaxlength : Option String
deriving DecidableEq, Repr

def extractValidation (e : Node) : Validation :=
  { vrequired := (getAttr e "required").isSome,
    vpattern := truthyAttr e "pattern",
    vmin := truthyAttr e "min",
    vmax := truthyAttr e "max",
    vminlength := truthyAttr e "minlength",
    vmaxlength := truthyAttr e "maxlength" }

/-- The tag-specific extras `_parse_field` adds to the field dict. -/
inductive FieldExtra where
  | selectData (options : List OptionEntry) (multiple : Bool)
  | choiceValue (value : String)
  | textareaData (rows cols : Option String)
  | inputData (value placeholder pattern : String)
deriving DecidableEq, Repr

/-- `FormParser._parse_select_options`: every `<option>` descendant, in
document order, with no de-duplication. -/
def optionOf (o : Node) : OptionEntry :=
  { value := (getAttr o "value").getD (getTextStrip o),
    text := getTextStrip o,
    selected := (getAttr o "selected").isSome,
    disabled := (getAttr o "disabled").isSome }

def parseSelectOptions (sel : Node) : List OptionEntry :=
  (descsList ["option"] sel.childrenOf).map optionOf

/-- The first lookup of `_find_label`: when the element has a truthy
`id` and an enclosing `<form>`, the text of the first `<label for=id>`
inside that form. -/
def labelByFor (ctx : Ctx) (e : Node) : Option String :=
  match truthyAttr e "id" with
  | some fid =>
    match ctx.form with
    | some f =>
      (findInList (fun m => isTag m "label" && (getAttr m "for" == some fid))
        f.childrenOf).map getTextStrip
    | none => none
  | none => none

/-- `FormParser._find_label`: `<label for=id>` inside the enclosing
`<form>` → nearest ancestor `<label>` → truthy `aria-label` → generated
placeholder (the only branch that consumes a UUID). -/
def findLabel (sup : Nat → String) (ctx : Ctx) (e : Node) (c : Nat) : PLabel × Nat :=
  match labelByFor ctx e with
  | some s => (.derived s, c)
  | none =>
    match ctx.labelText with
    | some s => (.derived s, c)
    | none =>
      match truthyAttr e "aria-label" with
      | some s => (.derived s, c)
      | none => (.generated (sup c), c + 1)

structure PField where
  pid : GenStr
  pname : String
  ptype : String
  prequired : Bool
  pdisabled : Bool
  plabel : PLabel
  pvalidation : Validation
  pextra : FieldExtra
deriving DecidableEq, Repr

def supportedInputTypes : List String :=
  ["text", "number", "email", "date", "tel", "url", "password",
   "radio", "checkbox", "select", "textarea", "file"]

/-- `_parse_field`'s early-return guard: `field_type not in
self.supported_input_types and tag_name not in {'select', 'textarea'}`. -/
def unsupportedField (e : Node) : Bool :=
  let tagName := pyLower e.tagOf
  let ftype := pyLower ((getAttr e "type").getD tagName)
  !(supportedInputTypes.contains ftype) && !(tagName == "select") && !(tagName == "textarea")

/-- `FormParser._parse_field`. -/
def parseField (sup : Nat → String) (ctx : Ctx) (e : Node) (c : Nat) :
    Option PField × Nat :=
  let tagName := pyLower e.tagOf
  let ftype := pyLower ((getAttr e "type").getD tagName)
  if unsupportedField e then
    (none, c)
  else
    let u := sup c
    let c1 := c + 1
    let pid : GenStr :=
      match getAttr e "id" with
      | some v => .attr v
      | none => .gen u
    let (plbl, c2) := findLabel sup ctx e c1
    let extra : FieldExtra :=
      if tagName == "select" then
        .selectData (parseSelectOptions e) ((getAttr e "multiple").isSome)
      else if ftype == "radio" || ftype == "checkbox" then
        .choiceValue ((getAttr e "value").getD "")
      else if tagName == "textarea" then
        .textareaData (getAttr e "rows") (getAttr e "cols")
      else
        .inputData ((getAttr e "value").getD "") ((getAttr e "placeholder").getD "")
          ((getAttr e "pattern").getD "")
    (some { pid := pid, pname := (getAttr e "name").getD "", ptype := ftype,
            prequired := (getAttr e "required").isSome,
            pdisabled := (getAttr e "disabled").isSome,
            plabel := plbl, pvalidation := extractValidation e, pextra := extra }, c2)

def fieldTags : List String := ["input", "select", "textarea"]

/-- `_parse_fields`' per-element loop: unsupported elements are skipped,
everything else is appended in order. -/
def parseFieldList (sup : Nat → String) : List (Node × Ctx) → Nat → List PField × Nat
  | [], c => ([], c)
  | (e, ctx) :: rest, c =>
    let (f?, c1) := parseField sup ctx e c
    let (fs, c2) := parseFieldList sup rest c1
    match f? with
    | some f => (f :: fs, c2)
    | none => (fs, c2)

/-- `find_all(['input','select','textarea'], recursive=False)`: the
direct children of the parent, each with the parent's inner context. -/
def directFieldElems (ctxIn : Ctx) (parent : Node) : List (Node × Ctx) :=
  parent.childrenOf.filterMap
    (fun ch => if fieldTags.contains ch.tagOf then some (ch, ctxIn) else none)

inductive PFieldset where
  | mk (pid : GenStr) (legend : String) (fields : List PField)
       (nested : List PFieldset)

def PFieldset.fieldsOf : PFieldset → List PField
  | .mk _ _ fs _ => fs

def PFieldset.nestedOf : PFieldset → List PFieldset
  | .mk _ _ _ ns => ns

mutual
/-- `FormParser._parse_fieldsets` restricted to one candidate child
node: a direct-child `<fieldset>` contributes one `Fieldset` whose
fields are *all* `input|select|textarea` descendants
(`_parse_fields(fieldset)` with `recursive=True`) and whose nested
fieldsets come from its own direct children. -/
def parseFSNode (sup : Nat → String) (ctxChild : Ctx) :
    Node → Nat → List PFieldset × Nat
  | .textN _, c => ([], c)
  | .elem t a cs, c =>
    if t == "fieldset" then
      let u := sup c
      let c1 := c + 1
      let pid : GenStr :=
        match getAttr (Node.elem t a cs) "id" with
        | some v => .attr v
        | none => .gen u
      let legend := ((findInList (fun m => isTag m "legend") cs).map getTextStrip).getD ""
      let ctxIn := ctxInto ctxChild (Node.elem t a cs)
      let (flds, c2) := parseFieldList sup (collectDescList fieldTags ctxIn cs) c1
      let (nested, c3) := parseFSNodes sup ctxIn cs c2
      ([PFieldset.mk pid legend flds nested], c3)
    else ([], c)
def parseFSNodes (sup : Nat → String) (ctxChild : Ctx) :
    List Node → Nat → List PFieldset × Nat
  | [], c => ([], c)
  | n :: rest, c =>
    let (fs1, c1) := parseFSNode sup ctxChild n c
    let (fs2, c2) := parseFSNodes sup ctxChild rest c1
    (fs1 ++ fs2, c2)
end

structure PForm where
  pid : GenStr
  pname : String
  paction : String
  pmethod : String
  pfieldsets : List PFieldset
  pfields : List PField

/-- `FormParser._parse_form`: direct-child fieldsets, then the form's
own fields with `exclude_fieldsets=True` (direct children only). -/
def parseForm (sup : Nat → String) (ctxOfForm : Ctx) (form : Node) (c : Nat) :
    PForm × Nat :=
  let u := sup c
  let c1 := c + 1
  let pid : GenStr :=
    match getAttr form "id" with
    | some v => .attr v
    | none => .gen u
  let ctxIn := ctxInto ctxOfForm form
  let (fss, c2) := parseFSNodes sup ctxIn form.childrenOf c1
  let (flds, c3) := parseFieldList sup (directFieldElems ctxIn form) c2
  ({ pid := pid, pname := (getAttr form "name").getD "",
     paction := (getAttr form "action").getD "",
     pmethod := pyUpper ((getAttr form "method").getD "GET"),
     pfieldsets := fss, pfields := flds }, c3)

def rootCtx : Ctx := { form := none, labelText := none }

def parseFormList (sup : Nat → String) : List (Node × Ctx) → Nat → List PForm × Nat
  | [], c => ([], c)
  | (f, ctx) :: rest, c =>
    let (pf, c1) := parseForm sup ctx f c
    let (pfs, c2) := parseFormList sup rest c1
    (pf :: pfs, c2)

/-- `FormParser.parse_html`: every `<form>` in the document, in document
order, parsed independently. -/
def parseHtml (sup : Nat → String) (doc : Node) (c : Nat) : List PForm × Nat :=
  parseFormList sup (collectNode ["form"] rootCtx doc) c

/-! ## C3: which elements static extraction collects -/

mutual
/-- Total number of `FieldDescriptor`s in a fieldset, its nested
fieldsets included. -/
def fsCount : PFieldset → Nat
  | .mk _ _ fs nested => fs.length + fsCountList nested
def fsCountList : List PFieldset → Nat
  | [] => 0
  | f :: t => fsCount f + fsCountList t
end

/-- Total number of `FieldDescriptor`s anywhere in a parsed form. -/
def formFieldCount (f : PForm) : Nat :=
  f.pfields.length + fsCountList f.pfieldsets

def sup0 : Nat → String := fun n => "u" ++ toString n

/-- A form whose single text input is nested inside a `<div>` — a
descendant of the form, claimed by no fieldset. -/
def docDeep : Node :=
  .elem "form" []
    [.elem "div" [] [.elem "input" [("type", "text"), ("name", "x")] []]]

/-- **C3, counterexample.**  The form of `docDeep` has exactly one
`input|select|textarea` descendant and it is not inside any fieldset,
yet the extracted schema contains zero fields: `_parse_fields(form,
exclude_fieldsets=True)` passes `recursive=False` to `find_all`, so
only *direct children* of the form are collected, not arbitrarily
nested descendants as the claim states. -/
theorem parse_c3_counterexample :
    (descsList fieldTags [docDeep]).length = 1 ∧
    ((parseHtml sup0 docDeep 0).1.map formFieldCount) = [0] := by decide

/-- The complement of `_parse_field`'s early-return guard: an element is
emitted iff its type is in the allow-list or it is a select/textarea. -/
def supportedElem (e : Node) : Bool :=
  let tagName := pyLower e.tagOf
  let ftype := pyLower ((getAttr e "type").getD tagName)
  supportedInputTypes.contains ftype || tagName == "select" || tagName == "textarea"

def nameOfElem (e : Node) : String := (getAttr e "name").getD ""

def typeOfElem (e : Node) : String :=
  pyLower ((getAttr e "type").getD (pyLower e.tagOf))

theorem unsupportedField_eq (e : Node) : unsupportedField e = !(supportedElem e) := by
  simp [unsupportedField, supportedElem, Bool.not_or]

theorem parseField_skip (sup : Nat → String) (ctx : Ctx) (e : Node) (c : Nat)
    (h : supportedElem e = false) : parseField sup ctx e c = (none, c) := by
  have hu : unsupportedField e = true := by rw [unsupportedField_eq, h]; rfl
  simp [parseField, hu]

theorem parseField_emit (sup : Nat → String) (ctx : Ctx) (e : Node) (c : Nat)
    (h : supportedElem e = true) :
    ∃ f c2, parseField sup ctx e c = (some f, c2) ∧
      f.pname = nameOfElem e ∧ f.ptype = typeOfElem e := by
  have hu : unsupportedField e = false := by rw [unsupportedField_eq, h]; rfl
  simp only [parseField, hu, Bool.false_eq_true, if_false]
  exact ⟨_, _, rfl, rfl, rfl⟩

theorem parseFieldList_names (sup : Nat → String) :
    ∀ (l : List (Node × Ctx)) (c : Nat),
      ((parseFieldList sup l c).1).map (fun f => (f.pname, f.ptype)) =
        (l.filter (fun pr => supportedElem pr.1)).map
          (fun pr => (nameOfElem pr.1, typeOfElem pr.1)) := by
  intro l
  induction l with
  | nil => intro c; rfl
  | cons p rest ih =>
    intro c
    obtain ⟨e, ctx⟩ := p
    by_cases h : supportedElem e = true
    · obtain ⟨f, c2, hpf, hn, ht⟩ := parseField_emit sup ctx e c h
      simp only [parseFieldList, hpf, List.filter_cons, h, if_pos trivial]
      simp [hn, ht, ih c2]
    · have hf : supportedElem e = false := by simpa using h
      simp only [parseFieldList, parseField_skip sup ctx e c hf, List.filter_cons]
      simp [hf, ih c]

theorem parseFSNode_length (sup : Nat → String) (ctx : Ctx) (n : Node) (c : Nat) :
    ((parseFSNode sup ctx n c).1).length = if n.tagOf == "fieldset" then 1 else 0 := by
  cases n with
  | textN s => simp [parseFSNode, Node.tagOf]
  | elem t a cs =>
    simp only [parseFSNode, Node.tagOf]
    split <;> simp_all

theorem parseFSNodes_length (sup : Nat → String) (ctx : Ctx) :
    ∀ (ns : List Node) (c : Nat),
      ((parseFSNodes sup ctx ns c).1).length =
        (ns.filter (fun ch => ch.tagOf == "fieldset")).length := by
  intro ns
  induction ns with
  | nil => intro c; rfl
  | cons n rest ih =>
    intro c
    simp only [parseFSNodes, List.filter_cons]
    rcases hA : parseFSNode sup ctx n c with ⟨fs1, c1⟩
    have hlen : fs1.length = if n.tagOf == "fieldset" then 1 else 0 := by
      have := parseFSNode_length sup ctx n c
      rw [hA] at this
      exact this
    by_cases ht : (n.tagOf == "fieldset") = true
    · simp [ht, List.length_append, hlen, ih c1, Nat.add_comm]
    · have ht2 : (n.tagOf == "fieldset") = false := by simpa using ht
      simp [ht2] at hlen
      simp [ht2, hlen, ih c1]

/-- **C3, amended.**  For every static form, the top-level `fields`
list is built from exactly the `input|select|textarea` elements that
are *direct children* of the form (in document order, unsupported types
skipped), and one `Fieldset` is built per *direct-child* `<fieldset>`
element; deeper non-fieldset nesting is not searched at the form
level (inside a fieldset, all descendants are collected). -/
theorem parse_c3_amended (sup : Nat → String) (ctx : Ctx) (form : Node) (c : Nat) :
    ((parseForm sup ctx form c).1.pfields).map (fun f => (f.pname, f.ptype)) =
      ((directFieldElems (ctxInto ctx form) form).filter
        (fun pr => supportedElem pr.1)).map
        (fun pr => (nameOfElem pr.1, typeOfElem pr.1)) ∧
    (parseForm sup ctx form c).1.pfieldsets.length =
      (form.childrenOf.filter (fun ch => ch.tagOf == "fieldset")).length := by
  simp only [parseForm]
  constructor
  · exact parseFieldList_names sup _ _
  · exact parseFSNodes_length sup _ _ _

/-! ## C5: de-duplication of option texts -/

/-- A form containing a `<select>` whose two options carry the same
visible text. -/
def docSelectDup : Node :=
  .elem "form" [("id", "f1")]
    [.elem "select" [("name", "s")]
      [.elem "option" [("value", "a")] [.textN " dup "],
       .elem "option" [("value", "b")] [.textN "dup"]]]

def optionTextsOf : FieldExtra → List String
  | .selectData opts _ => opts.map (fun o => o.text)
  | _ => []

/-- **C5, counterexample.**  Static extraction of `docSelectDup`
produces a select field whose options carry the duplicate text `dup`
twice: `_parse_select_options` copies every `<option>` child verbatim
and performs no de-duplication, so the claimed set-dedup invariant
fails for `<select>` fields from static HTML. -/
theorem parse_c5_counterexample :
    ((parseHtml sup0 docSelectDup 0).1.map
      (fun f => f.pfields.map (fun fd => optionTextsOf fd.pextra))) = [[["dup", "dup"]]] ∧
    ¬ (["dup", "dup"] : List String).Nodup := by decide

/-- One candidate option element of the Google-parser option loop,
reduced to the pair the loop reads: its stripped inner text and its
`data-value` attribute (`data-value or opt_text`). -/
def googleOptPair (o : Node) : String × String :=
  let t := pyStrip (getTextStrip o)
  (t, match truthyAttr o "data-value" with
      | some v => v
      | none => t)

/-- The option-collection loop of `parse_google_form`: an option is
appended (its value) when its text is non-empty, differs from the
question label, has not been collected yet, and is not the
`Other`-option sentinel. -/
def googleCollect (label : String) : List Node → List String → List String
  | [], acc => acc
  | o :: rest, acc =>
    let t := (googleOptPair o).1
    let v := (googleOptPair o).2
    if t ≠ "" ∧ t ≠ label ∧ ¬ acc.contains t ∧ t ≠ "Other:" ∧ v ≠ "__other_option__" then
      googleCollect label rest (acc ++ [v])
    else googleCollect label rest acc

/-- `sorted(set(options))`: the distinct collected values in ascending
order. -/
def sortedDedup (l : List String) : List String :=
  (l.dedup).mergeSort (fun a b => a ≤ b)

/-- `field["options"] = [{"value": opt, "text": opt, ...} for opt in
sorted(set(options))]`. -/
def googleOptionsFromLoop (label : String) (elems : List Node) : List OptionEntry :=
  (sortedDedup (googleCollect label elems [])).map
    (fun o => { value := o, text := o, selected := false, disabled := false })

theorem sortedDedup_nodup (l : List String) : (sortedDedup l).Nodup :=
  ((List.mergeSort_perm l.dedup _).nodup_iff).mpr (List.nodup_dedup l)

/-- **C5, amended.**  The SPA-side option lists built by the Google
parser's selector loop are de-duplicated: after `sorted(set(...))` no
two entries share a text (the separate `Other`-option append and the
static-HTML `<select>` path are the two places where a duplicate text
can still appear). -/
theorem google_options_nodup (label : String) (elems : List Node) :
    ((googleOptionsFromLoop label elems).map (fun o => o.text)).Nodup := by
  have h : ((googleOptionsFromLoop label elems).map (fun o => o.text)) =
      sortedDedup (googleCollect label elems []) := by
    unfold googleOptionsFromLoop
    rw [List.map_map]
    have hcomp : ((fun o : OptionEntry => o.text) ∘ fun o =>
        ({ value := o, text := o, selected := false, disabled := false } : OptionEntry)) =
        id := rfl
    rw [hcomp, List.map_id]
  rw [h]
  exact sortedDedup_nodup _

/-! ## C4: SPA field-type detection precedence

The three SPA parsers decide a question container's field type with a
chain of `query_selector` checks.  We model a container as a DOM
subtree and each `query_selector(sel)` as "some descendant matches the
selector". -/

mutual
def anyNode (p : Node → Bool) : Node → Bool
  | .textN _ => false
  | .elem t a cs => p (Node.elem t a cs) || anyList p cs
def anyList (p : Node → Bool) : List Node → Bool
  | [] => false
  | c :: cs => anyNode p c || anyList p cs
end

/-- `block.query_selector(sel)` truthiness: some descendant of the
container matches. -/
def queryDesc (p : Node → Bool) (n : Node) : Bool :=
  anyList p n.childrenOf

def attrIs (n : Node) (k v : String) : Bool :=
  getAttr n k == some v

def selRadiogroupDiv (n : Node) : Bool := isTag n "div" && attrIs n "role" "radiogroup"

def selGoogleTextInput (n : Node) : Bool :=
  isTag n "input" && (attrIs n "type" "text" || attrIs n "type" "email" ||
    attrIs n "type" "tel" || attrIs n "type" "number" || attrIs n "type" "date")

def selTextarea (n : Node) : Bool := isTag n "textarea"

def selCheckbox (n : Node) : Bool :=
  (isTag n "input" && attrIs n "type" "checkbox") ||
  (isTag n "div" && attrIs n "role" "checkbox")

def selGoogleSelect (n : Node) : Bool :=
  isTag n "select" || (isTag n "div" && attrIs n "role" "listbox") ||
  (isTag n "div" && attrIs n "data-type" "dropdown")

def selAnyInput (n : Node) : Bool := isTag n "input"

def selRadio (n : Node) : Bool :=
  (isTag n "input" && attrIs n "type" "radio") ||
  (isTag n "div" && attrIs n "role" "radio")

def selSelect (n : Node) : Bool :=
  isTag n "select" || (isTag n "div" && attrIs n "role" "listbox")

/-- `parse_google_form`'s type-detection chain (radiogroup first, then
text-like inputs, textarea, checkbox, select/listbox/dropdown). -/
def googleFieldType (block : Node) : String :=
  if queryDesc selRadiogroupDiv block then "multiple_choice"
  else if queryDesc selGoogleTextInput block then "text"
  else if queryDesc selTextarea block then "paragraph"
  else if queryDesc selCheckbox block then "checkbox"
  else if queryDesc selGoogleSelect block then "dropdown"
  else "text"

/-- `parse_typeform`'s type-detection chain: *any* `input` matches
first, so radio/checkbox inputs are classified as text. -/
def typeformFieldType (block : Node) : String :=
  if queryDesc selAnyInput block then "text"
  else if queryDesc selTextarea block then "paragraph"
  else if queryDesc selRadio block then "multiple_choice"
  else if queryDesc selCheckbox block then "checkbox"
  else if queryDesc selSelect block then "dropdown"
  else "text"

/-- `parse_microsoft_form`'s type-detection chain (same checks as the
Typeform parser). -/
def microsoftFieldType (block : Node) : String :=
  if queryDesc selAnyInput block then "text"
  else if queryDesc selTextarea block then "paragraph"
  else if queryDesc selRadio block then "multiple_choice"
  else if queryDesc selCheckbox block then "checkbox"
  else if queryDesc selSelect block then "dropdown"
  else "text"

/-- An ordered selector-strategy table evaluated top-down: the first
row whose selector matches a descendant decides the type. -/
def firstMatch (table : List ((Node → Bool) × String)) (dflt : String) (block : Node) :
    String :=
  match table.find? (fun row => queryDesc row.1 block) with
  | some row => row.2
  | none => dflt

def googleTypeTable : List ((Node → Bool) × String) :=
  [(selRadiogroupDiv, "multiple_choice"), (selGoogleTextInput, "text"),
   (selTextarea, "paragraph"), (selCheckbox, "checkbox"),
   (selGoogleSelect, "dropdown")]

def inputFirstTypeTable : List ((Node → Bool) × String) :=
  [(selAnyInput, "text"), (selTextarea, "paragraph"), (selRadio, "multiple_choice"),
   (selCheckbox, "checkbox"), (selSelect, "dropdown")]

/-- Modelled from the claim's words: the strict precedence order
radio/role-radio > checkbox > native input type > textarea >
select/listbox > fallback text, first match wins. -/
def claimOrderFieldType (block : Node) : String :=
  if queryDesc selRadio block then "multiple_choice"
  else if queryDesc selCheckbox block then "checkbox"
  else if queryDesc selAnyInput block then "text"
  else if queryDesc selTextarea block then "paragraph"
  else if queryDesc selSelect block then "dropdown"
  else "text"

/-- A Typeform/Microsoft question container holding only a radio
input. -/
def blockRadioOnly : Node :=
  .elem "div" [("data-qa", "question")] [.elem "input" [("type", "radio")] []]

/-- A Google question container holding a checkbox and a date input. -/
def blockCheckboxDate : Node :=
  .elem "div" [("role", "listitem")]
    [.elem "input" [("type", "checkbox")] [], .elem "input" [("type", "date")] []]

/-- **C4, counterexample.**  The claimed precedence (radio first,
checkbox before native inputs) does not hold: the Typeform/Microsoft
chain classifies a radio-only container as `text` (its first check
matches *any* `input`), and the Google chain classifies a
checkbox-plus-date container as `text` (text-like inputs are checked
before checkboxes), while the claimed order yields `multiple_choice`
and `checkbox` respectively. -/
theorem spa_c4_counterexample :
    typeformFieldType blockRadioOnly = "text" ∧
    claimOrderFieldType blockRadioOnly = "multiple_choice" ∧
    googleFieldType blockCheckboxDate = "text" ∧
    claimOrderFieldType blockCheckboxDate = "checkbox" := by decide

/-- **C4, amended.**  Each SPA parser assigns exactly one type as the
first match of its own ordered selector table: Google checks
radio-group > text-like input > textarea > checkbox > select/listbox >
fallback text, and Typeform/Microsoft check any-input > textarea >
radio > checkbox > select/listbox > fallback text. -/
theorem spa_c4_amended (b : Node) :
    googleFieldType b = firstMatch googleTypeTable "text" b ∧
    typeformFieldType b = firstMatch inputFirstTypeTable "text" b ∧
    microsoftFieldType b = firstMatch inputFirstTypeTable "text" b := by
  refine ⟨?_, ?_, ?_⟩
  · simp only [googleFieldType, firstMatch, googleTypeTable, List.find?]
    by_cases h1 : queryDesc selRadiogroupDiv b = true <;>
      by_cases h2 : queryDesc selGoogleTextInput b = true <;>
      by_cases h3 : queryDesc selTextarea b = true <;>
      by_cases h4 : queryDesc selCheckbox b = true <;>
      by_cases h5 : queryDesc selGoogleSelect b = true <;>
      simp_all
  · simp only [typeformFieldType, firstMatch, inputFirstTypeTable, List.find?]
    by_cases h1 : queryDesc selAnyInput b = true <;>
      by_cases h2 : queryDesc selTextarea b = true <;>
      by_cases h3 : queryDesc selRadio b = true <;>
      by_cases h4 : queryDesc selCheckbox b = true <;>
      by_cases h5 : queryDesc selSelect b = true <;>
      simp_all
  · simp only [microsoftFieldType, firstMatch, inputFirstTypeTable, List.find?]
    by_cases h1 : queryDesc selAnyInput b = true <;>
      by_cases h2 : queryDesc selTextarea b = true <;>
      by_cases h3 : queryDesc selRadio b = true <;>
      by_cases h4 : queryDesc selCheckbox b = true <;>
      by_cases h5 : queryDesc selSelect b = true <;>
      simp_all

/-! ## C6: browser profile fallback -/

inductive CtxMode where
  | persistent
  | ephemeral
deriving DecidableEq, Repr

/-- `FormParser.__init__` profile selection: when `use_profile` is set
but the configured path does not exist, the path is cleared. -/
def parserProfilePath (fsExists : String → Bool) (useProfile : Bool) (cfgPath : String) :
    String :=
  let p := if useProfile then cfgPath else ""
  if useProfile && !(fsExists p) then "" else p

/-- `FormParser.initialize`: with a (truthy) profile path, try the
persistent context and fall back to a fresh context if that launch
raises; with no profile path, always use a fresh context. -/
def parserStart (persistentOk : Bool) (profilePath : String) : Except String CtxMode :=
  if profilePath ≠ "" then
    if persistentOk then .ok .persistent else .ok .ephemeral
  else .ok .ephemeral

/-- `FormAutofiller.initialize`: a missing user-data directory raises
`ValueError` (re-raised by the outer handler); there is no ephemeral
fallback. -/
def autofillerStart (fsExists : String → Bool) (userDataDir : String) (launchOk : Bool) :
    Except String CtxMode :=
  if !(fsExists userDataDir) then
    .error ("Chrome user data directory not found: " ++ userDataDir)
  else if launchOk then .ok .persistent
  else .error "Failed to initialize Playwright"

/-- **C6, counterexample.**  With a missing user-data directory the
autofill engine's initialization raises a `ValueError` instead of
falling back to an ephemeral context, so the claim fails for the
autofill half of "every extraction or autofill call". -/
theorem session_c6_counterexample :
    autofillerStart (fun _ => false) "/root/.config/google-chrome" true =
      .error "Chrome user data directory not found: /root/.config/google-chrome" := rfl

/-- **C6, amended.**  The extraction engine falls back to an ephemeral
context when the configured profile directory is missing (and also when
the persistent launch itself raises), but the autofill engine instead
raises a `ValueError` naming the missing directory. -/
theorem session_c6_amended (fsExists : String → Bool) (cfgPath dir anyPath : String)
    (persistentOk launchOk : Bool)
    (hmiss : fsExists cfgPath = false) (hdmiss : fsExists dir = false) :
    parserStart persistentOk (parserProfilePath fsExists true cfgPath) = .ok .ephemeral ∧
    parserStart false anyPath = .ok .ephemeral ∧
    autofillerStart fsExists dir launchOk =
      .error ("Chrome user data directory not found: " ++ dir) := by
  refine ⟨?_, ?_, ?_⟩
  · simp [parserProfilePath, hmiss, parserStart]
  · by_cases h : anyPath = "" <;> simp [parserStart, h]
  · simp [autofillerStart, hdmiss]

theorem session_c6_amended_witness :
    parserStart true (parserProfilePath (fun _ => false) true "/home/u/.config/google-chrome")
      = .ok .ephemeral ∧
    parserStart false "/profiles/p" = .ok .ephemeral ∧
    autofillerStart (fun _ => false) "/home/u/chrome" true =
      .error ("Chrome user data directory not found: " ++ "/home/u/chrome") :=
  session_c6_amended (fun _ => false) "/home/u/.config/google-chrome" "/home/u/chrome"
    "/profiles/p" true true rfl rfl

/-! ## C9: re-extracting the same static HTML

Two runs of `parse_html` on the same document differ only in the
freshly generated UUIDs (generated ids and the `Untitled Field {uuid8}`
placeholder labels).  We make this precise by an erasure that blanks
exactly the generated payloads and prove that the erased schemas of two
runs coincide — and, by a counterexample, that the *labels* themselves
do not, refuting the claim as stated. -/

def GenStr.erase : GenStr → GenStr
  | .attr v => .attr v
  | .gen _ => .gen ""

def PLabel.erase : PLabel → PLabel
  | .derived s => .derived s
  | .generated _ => .generated ""

def PField.erase (f : PField) : PField :=
  { f with pid := f.pid.erase, plabel := f.plabel.erase }

mutual
def PFieldset.erase : PFieldset → PFieldset
  | .mk pid legend fs ns => .mk pid.erase legend (fs.map PField.erase) (eraseFSList ns)
def eraseFSList : List PFieldset → List PFieldset
  | [] => []
  | f :: t => PFieldset.erase f :: eraseFSList t
end

def PForm.erase (f : PForm) : PForm :=
  { f with pid := f.pid.erase, pfieldsets := eraseFSList f.pfieldsets,
           pfields := f.pfields.map PField.erase }

theorem findLabel_indep (s1 s2 : Nat → String) (ctx : Ctx) (e : Node) (c : Nat) :
    ((findLabel s1 ctx e c).1).erase = ((findLabel s2 ctx e c).1).erase ∧
    (findLabel s1 ctx e c).2 = (findLabel s2 ctx e c).2 := by
  cases h1 : labelByFor ctx e with
  | some s => simp [findLabel, h1]
  | none =>
    cases h2 : ctx.labelText with
    | some s => simp [findLabel, h1, h2]
    | none =>
      cases h3 : truthyAttr e "aria-label" with
      | some s => simp [findLabel, h1, h2, h3]
      | none => simp [findLabel, h1, h2, h3, PLabel.erase]

theorem parseField_indep (s1 s2 : Nat → String) (ctx : Ctx) (e : Node) (c : Nat) :
    ((parseField s1 ctx e c).1).map PField.erase =
      ((parseField s2 ctx e c).1).map PField.erase ∧
    (parseField s1 ctx e c).2 = (parseField s2 ctx e c).2 := by
  by_cases hg : supportedElem e = true
  · have hu : unsupportedField e = false := by rw [unsupportedField_eq, hg]; rfl
    rcases hA : findLabel s1 ctx e (c + 1) with ⟨l1, d1⟩
    rcases hB : findLabel s2 ctx e (c + 1) with ⟨l2, d2⟩
    have hl := findLabel_indep s1 s2 ctx e (c + 1)
    rw [hA, hB] at hl
    simp only at hl
    simp only [parseField, hu, Bool.false_eq_true, if_false, hA, hB]
    cases hid : getAttr e "id" <;>
      simp [PField.erase, GenStr.erase, hl.1, hl.2]
  · have hg2 : supportedElem e = false := by simpa using hg
    simp [parseField_skip s1 ctx e c hg2, parseField_skip s2 ctx e c hg2]

theorem parseFieldList_indep (s1 s2 : Nat → String) :
    ∀ (l : List (Node × Ctx)) (c : Nat),
      ((parseFieldList s1 l c).1).map PField.erase =
        ((parseFieldList s2 l c).1).map PField.erase ∧
      (parseFieldList s1 l c).2 = (parseFieldList s2 l c).2 := by
  intro l
  induction l with
  | nil => intro c; exact ⟨rfl, rfl⟩
  | cons p rest ih =>
    intro c
    obtain ⟨e, ctx⟩ := p
    rcases hA : parseField s1 ctx e c with ⟨f1, c1⟩
    rcases hB : parseField s2 ctx e c with ⟨f2, c2⟩
    have hf := parseField_indep s1 s2 ctx e c
    rw [hA, hB] at hf
    simp only at hf
    obtain ⟨hfe, hfc⟩ := hf
    subst hfc
    rcases hC : parseFieldList s1 rest c1 with ⟨fs1, e1⟩
    rcases hD : parseFieldList s2 rest c1 with ⟨fs2, e2⟩
    have hr := ih c1
    rw [hC, hD] at hr
    simp only at hr
    obtain ⟨hre, hrc⟩ := hr
    subst hrc
    simp only [parseFieldList, hA, hB, hC, hD]
    cases f1 with
    | none =>
      cases f2 with
      | none => exact ⟨hre, rfl⟩
      | some g2 => simp at hfe
    | some g1 =>
      cases f2 with
      | none => simp at hfe
      | some g2 =>
        simp only [Option.map_some'] at hfe
        have hg : g1.erase = g2.erase := by injection hfe
        exact ⟨by simp [hg, hre], rfl⟩

mutual
theorem parseFSNode_indep (s1 s2 : Nat → String) (n : Node) : ∀ (ctx : Ctx) (c : Nat),
    eraseFSList (parseFSNode s1 ctx n c).1 = eraseFSList (parseFSNode s2 ctx n c).1 ∧
    (parseFSNode s1 ctx n c).2 = (parseFSNode s2 ctx n c).2 := by
  cases n with
  | textN s => intro ctx c; exact ⟨rfl, rfl⟩
  | elem t a cs =>
    intro ctx c
    by_cases ht : (t == "fieldset") = true
    · rcases hA : parseFieldList s1
        (collectDescList fieldTags (ctxInto ctx (Node.elem t a cs)) cs) (c + 1) with ⟨fl1, d1⟩
      rcases hB : parseFieldList s2
        (collectDescList fieldTags (ctxInto ctx (Node.elem t a cs)) cs) (c + 1) with ⟨fl2, d2⟩
      have hf := parseFieldList_indep s1 s2
        (collectDescList fieldTags (ctxInto ctx (Node.elem t a cs)) cs) (c + 1)
      rw [hA, hB] at hf
      simp only at hf
      obtain ⟨hfe, hfc⟩ := hf
      subst hfc
      rcases hC : parseFSNodes s1 (ctxInto ctx (Node.elem t a cs)) cs d1 with ⟨ns1, e1⟩
      rcases hD : parseFSNodes s2 (ctxInto ctx (Node.elem t a cs)) cs d1 with ⟨ns2, e2⟩
      have hn := parseFSNodes_indep s1 s2 cs (ctxInto ctx (Node.elem t a cs)) d1
      rw [hC, hD] at hn
      simp only at hn
      obtain ⟨hne, hnc⟩ := hn
      subst hnc
      simp only [parseFSNode, ht, if_true, hA, hB, hC, hD]
      cases hid : getAttr (Node.elem t a cs) "id" <;>
        simp [eraseFSList, PFieldset.erase, GenStr.erase, hfe, hne]
    · simp [parseFSNode, ht]
theorem parseFSNodes_indep (s1 s2 : Nat → String) (ns : List Node) :
    ∀ (ctx : Ctx) (c : Nat),
      eraseFSList (parseFSNodes s1 ctx ns c).1 = eraseFSList (parseFSNodes s2 ctx ns c).1 ∧
      (parseFSNodes s1 ctx ns c).2 = (parseFSNodes s2 ctx ns c).2 := by
  cases ns with
  | nil => intro ctx c; exact ⟨rfl, rfl⟩
  | cons n rest =>
    intro ctx c
    rcases hA : parseFSNode s1 ctx n c with ⟨fs1, c1⟩
    rcases hB : parseFSNode s2 ctx n c with ⟨fs2, c2⟩
    have h1 := parseFSNode_indep s1 s2 n ctx c
    rw [hA, hB] at h1
    simp only at h1
    obtain ⟨h1e, h1c⟩ := h1
    subst h1c
    rcases hC : parseFSNodes s1 ctx rest c1 with ⟨gs1, e1⟩
    rcases hD : parseFSNodes s2 ctx rest c1 with ⟨gs2, e2⟩
    have h2 := parseFSNodes_indep s1 s2 rest ctx c1
    rw [hC, hD] at h2
    simp only at h2
    obtain ⟨h2e, h2c⟩ := h2
    subst h2c
    simp only [parseFSNodes, hA, hB, hC, hD]
    constructor
    · have : ∀ (xs ys : List PFieldset),
          eraseFSList (xs ++ ys) = eraseFSList xs ++ eraseFSList ys := by
        intro xs
        induction xs with
        | nil => intro ys; rfl
        | cons x xt ihx => intro ys; simp [eraseFSList, ihx]
      simp only [this, h1e, h2e]
    · trivial
end

theorem parseForm_indep (s1 s2 : Nat → String) (ctx : Ctx) (form : Node) (c : Nat) :
    ((parseForm s1 ctx form c).1).erase = ((parseForm s2 ctx form c).1).erase ∧
    (parseForm s1 ctx form c).2 = (parseForm s2 ctx form c).2 := by
  rcases hA : parseFSNodes s1 (ctxInto ctx form) form.childrenOf (c + 1) with ⟨fs1, d1⟩
  rcases hB : parseFSNodes s2 (ctxInto ctx form) form.childrenOf (c + 1) with ⟨fs2, d2⟩
  have h1 := parseFSNodes_indep s1 s2 form.childrenOf (ctxInto ctx form) (c + 1)
  rw [hA, hB] at h1
  simp only at h1
  obtain ⟨h1e, h1c⟩ := h1
  subst h1c
  rcases hC : parseFieldList s1 (directFieldElems (ctxInto ctx form) form) d1 with ⟨fl1, e1⟩
  rcases hD : parseFieldList s2 (directFieldElems (ctxInto ctx form) form) d1 with ⟨fl2, e2⟩
  have h2 := parseFieldList_indep s1 s2 (directFieldElems (ctxInto ctx form) form) d1
  rw [hC, hD] at h2
  simp only at h2
  obtain ⟨h2e, h2c⟩ := h2
  subst h2c
  simp only [parseForm, hA, hB, hC, hD]
  cases hid : getAttr form "id" <;>
    simp [PForm.erase, GenStr.erase, h1e, h2e]

theorem parseFormList_indep (s1 s2 : Nat → String) :
    ∀ (l : List (Node × Ctx)) (c : Nat),
      ((parseFormList s1 l c).1).map PForm.erase =
        ((parseFormList s2 l c).1).map PForm.erase ∧
      (parseFormList s1 l c).2 = (parseFormList s2 l c).2 := by
  intro l
  induction l with
  | nil => intro c; exact ⟨rfl, rfl⟩
  | cons p rest ih =>
    intro c
    obtain ⟨f, ctx⟩ := p
    rcases hA : parseForm s1 ctx f c with ⟨pf1, c1⟩
    rcases hB : parseForm s2 ctx f c with ⟨pf2, c2⟩
    have h1 := parseForm_indep s1 s2 ctx f c
    rw [hA, hB] at h1
    simp only at h1
    obtain ⟨h1e, h1c⟩ := h1
    subst h1c
    rcases hC : parseFormList s1 rest c1 with ⟨pfs1, e1⟩
    rcases hD : parseFormList s2 rest c1 with ⟨pfs2, e2⟩
    have h2 := ih c1
    rw [hC, hD] at h2
    simp only at h2
    obtain ⟨h2e, h2c⟩ := h2
    subst h2c
    simp only [parseFormList, hA, hB, hC, hD]
    exact ⟨by simp [h1e, h2e], trivial⟩

/-- **C9, amended.**  Re-extracting the same static HTML with two
different UUID supplies yields schemas that are identical after erasing
exactly the generated payloads: the generated ids and the generated
`Untitled Field {uuid8}` placeholder labels.  Everything else —
field order, names, types, required flags, options, validation, and
every label that was *derived* from the document — coincides, and both
runs consume the same number of UUIDs. -/
theorem parse_c9_amended (doc : Node) (s1 s2 : Nat → String) (c : Nat) :
    ((parseHtml s1 doc c).1).map PForm.erase = ((parseHtml s2 doc c).1).map PForm.erase ∧
    (parseHtml s1 doc c).2 = (parseHtml s2 doc c).2 := by
  unfold parseHtml
  exact parseFormList_indep s1 s2 (collectNode ["form"] rootCtx doc) c

def supA : Nat → String := fun n => "a" ++ toString n

def supB : Nat → String := fun n => "b" ++ toString n

/-- A form whose input has no label source at all, so `_find_label`
falls through to the generated placeholder. -/
def docNoLabel : Node :=
  .elem "form" [] [.elem "input" [("type", "text"), ("name", "q")] []]

/-- **C9, counterexample.**  Two runs of extraction on the same HTML
with different UUID draws produce *different labels* for the
placeholder-labelled field (`Untitled Field a2` vs `Untitled Field
b2`), so the claim that the labels of corresponding fields are
identical across the two runs is false. -/
theorem parse_c9_counterexample :
    ((parseHtml supA docNoLabel 0).1.map
      (fun f => f.pfields.map (fun fd => PLabel.render fd.plabel))) =
        [["Untitled Field a2"]] ∧
    ((parseHtml supB docNoLabel 0).1.map
      (fun f => f.pfields.map (fun fd => PLabel.render fd.plabel))) =
        [["Untitled Field b2"]] ∧
    ("Untitled Field a2" : String) ≠ "Untitled Field b2" := by decide

end C2F
